import Mathlib

/-!
Verification development for the CryMono converter boundary
(src/MonoDll/Headers/IMonoConverter.h).

The repository ships only the abstract interface `IMonoConverter` with three
pure-virtual operations (`ToString`, `ToArray`, `ToObject`); the implementation
lives outside the supplied sources.  Following the specification, the managed
runtime and the converter's behaviour are modelled here from the spec's words,
while the interface shape (handle types, operation signatures, the `allowGC`
parameter and its default) is taken directly from the header.
-/

/-- The incomplete classes forward-declared in namespace mono of the header:
class _string and class _object are two distinct C++ class types. -/
inductive MonoClass : Type where
  | _string : MonoClass
  | _object : MonoClass
deriving DecidableEq

/-- A managed handle is a raw pointer to one of the incomplete managed classes;
address 0 is the null pointer.  The pointee class is part of the type, so a
string handle and an object handle have statically distinct types. -/
structure Ptr (c : MonoClass) where
  addr : Nat
deriving DecidableEq

namespace mono

/-- mono::string, the typedef _string *string of the header. -/
abbrev string : Type := Ptr MonoClass._string

/-- mono::object, the typedef _object *object of the header. -/
abbrev object : Type := Ptr MonoClass._object

end mono

/-- Modelled from the spec: a managed (non-string) value owned by the managed
runtime: either a plain object (observable payload) or an array of elements.
The spec's data model gives only opaque handles to runtime-owned values; the
payloads stand for their observable contents. -/
inductive ManagedObject : Type where
  | plain (data : Int) : ManagedObject
  | array (elems : List Int) : ManagedObject
deriving DecidableEq

/-- Modelled from the spec: the managed runtime's shared state, an external
collaborator of the boundary.  Strings and objects live in heaps indexed by
handle address; `pinned` is the collector's set of pinned addresses (the
collection roots created by pinning conversions). -/
structure MonoRuntime where
  strings : Nat → Option (List Char)
  objects : Nat → Option ManagedObject
  pinned : List Nat

/-- Modelled from the spec: a mutation of a managed string performed by the
managed side after a conversion (used to state the snapshot contract). -/
def setString (rt : MonoRuntime) (a : Nat) (t : List Char) : MonoRuntime :=
  { rt with strings := fun x => if x = a then some t else rt.strings x }

/-- Modelled from the spec: one forced collection cycle of the managed
runtime's collector.  The collector may reclaim any of the `victims`
(unreachable objects) except those registered as pinned. -/
def collect (rt : MonoRuntime) (victims : List Nat) : MonoRuntime :=
  { rt with
    objects := fun a =>
      if a ∈ victims ∧ a ∉ rt.pinned then none else rt.objects a }

/-- The array accessor returned by ToArray; the header's comment names its
GetSize / GetItem functionality.  Modelled from the spec: it exposes length
query and element retrieval over the managed array's contents at conversion
time. -/
structure IMonoArray where
  elems : List Int
deriving DecidableEq

/-- Length query of the array accessor. -/
def IMonoArray.GetSize (a : IMonoArray) : Nat :=
  a.elems.length

/-- Element retrieval of the array accessor. -/
def IMonoArray.GetItem (a : IMonoArray) (i : Nat) : Option Int :=
  a.elems[i]?

/-- The object accessor returned by ToObject.  Modelled from the spec: a
native-side view holding the managed object's handle address; it owns nothing,
the value stays in the runtime. -/
structure IMonoObject where
  addr : Nat
deriving DecidableEq

/-- Reading through an object accessor against the current runtime state:
the underlying managed object, if still alive. -/
def IMonoObject.deref (o : IMonoObject) (rt : MonoRuntime) : Option ManagedObject :=
  rt.objects o.addr

namespace IMonoConverter

/-- Converts a mono string to a const char *.  Modelled from the spec:
a stateless, synchronous translation returning a snapshot of the managed
string's contents at call time; fails (none) on a null or invalid handle.
The runtime state is threaded to record that the call leaves it unchanged. -/
def ToString (rt : MonoRuntime) (monoString : mono.string) :
    Option (List Char) × MonoRuntime :=
  (if monoString.addr = 0 then none else rt.strings monoString.addr, rt)

/-- Converts a mono array to a IMonoArray.  Modelled from the spec: wraps the
managed array's contents at conversion time in an accessor; fails (none) on a
null handle, a dangling handle, or a handle whose referent is not an array. -/
def ToArray (rt : MonoRuntime) (arr : mono.object) :
    Option IMonoArray × MonoRuntime :=
  (if arr.addr = 0 then none
   else
     match rt.objects arr.addr with
     | some (ManagedObject.array es) => some (IMonoArray.mk es)
     | _ => none,
   rt)

/-- Converts an mono object to a IMonoObject.  The header declares the flag
bool allowGC = true.  Modelled from the spec: fails (none) on a null or
invalid handle; when allowGC is false the converter pins the object, adding
its address to the collector's pinned roots, and that is its only mutation of
the shared state. -/
def ToObject (rt : MonoRuntime) (obj : mono.object) (allowGC : Bool) :
    Option IMonoObject × MonoRuntime :=
  if obj.addr = 0 then (none, rt)
  else
    match rt.objects obj.addr with
    | none => (none, rt)
    | some _ =>
      if allowGC then (some (IMonoObject.mk obj.addr), rt)
      else (some (IMonoObject.mk obj.addr), { rt with pinned := obj.addr :: rt.pinned })

end IMonoConverter

/-- The default value of the allowGC parameter in the header's declaration
ToObject(mono::object obj, bool allowGC = true). -/
def allowGCDefault : Bool := true

/-- A call of ToObject that supplies only the handle: the omitted allowGC
parameter takes its declared default. -/
def ToObjectDefaultCall (rt : MonoRuntime) (obj : mono.object) :
    Option IMonoObject × MonoRuntime :=
  IMonoConverter.ToObject rt obj allowGCDefault

/-- A concrete example runtime used for witnesses: a two-character string at
address 1, an empty string at address 4, a plain object at address 2 and a
two-element array at address 3; nothing pinned. -/
def rtEx : MonoRuntime where
  strings := fun a =>
    if a = 1 then some ['h', 'i'] else if a = 4 then some [] else none
  objects := fun a =>
    if a = 2 then some (ManagedObject.plain 5)
    else if a = 3 then some (ManagedObject.array [7, 8])
    else none
  pinned := []

/-- Helper: the shape of a successful ToObject call: the handle is non-null,
the accessor holds the handle's address, the object exists in the heap, the
heaps are unchanged, and the pinned roots gain the address exactly when
allowGC is false. -/
theorem ToObject_eq_some (rt : MonoRuntime) (h : mono.object) (g : Bool)
    (acc : IMonoObject) (rt' : MonoRuntime)
    (hcall : IMonoConverter.ToObject rt h g = (some acc, rt')) :
    h.addr ≠ 0 ∧ acc = IMonoObject.mk h.addr ∧
      (∃ v, rt.objects h.addr = some v) ∧
      rt'.strings = rt.strings ∧ rt'.objects = rt.objects ∧
      rt'.pinned = (if g then rt.pinned else h.addr :: rt.pinned) := by
  unfold IMonoConverter.ToObject at hcall
  by_cases h0 : h.addr = 0
  · simp [h0] at hcall
  · cases hobj : rt.objects h.addr with
    | none => simp [h0, hobj] at hcall
    | some v =>
      simp [h0, hobj] at hcall
      cases g with
      | true =>
        simp at hcall
        obtain ⟨hacc, hrt'⟩ := hcall
        subst hacc
        subst hrt'
        exact ⟨h0, rfl, ⟨v, rfl⟩, rfl, rfl, by simp⟩
      | false =>
        simp at hcall
        obtain ⟨hacc, hrt'⟩ := hcall
        subst hacc
        subst hrt'
        exact ⟨h0, rfl, ⟨v, rfl⟩, rfl, rfl, by simp⟩

/-- C1: converting a managed object handle with the pin flag set (allowGC =
false) yields an accessor whose underlying managed object is never collected
while the accessor is alive: after any forced collection cycle triggered
between conversion and accessor use, reading through the accessor still
returns the managed object that was there at conversion time. -/
theorem toObject_pinned_survives_collect
    (rt : MonoRuntime) (h : mono.object) (acc : IMonoObject) (rt' : MonoRuntime)
    (hcall : IMonoConverter.ToObject rt h false = (some acc, rt'))
    (victims : List Nat) :
    IMonoObject.deref acc (collect rt' victims) = rt.objects h.addr ∧
      ∃ v, IMonoObject.deref acc (collect rt' victims) = some v := by
  obtain ⟨h0, hacc, ⟨v, hv⟩, hstr, hobjs, hpin⟩ :=
    ToObject_eq_some rt h false acc rt' hcall
  subst hacc
  simp at hpin
  have hmem : h.addr ∈ rt'.pinned := by
    rw [hpin]; exact List.mem_cons_self _ _
  constructor
  · simp [IMonoObject.deref, collect, hmem, hobjs]
  · exact ⟨v, by simp [IMonoObject.deref, collect, hmem, hobjs, hv]⟩

/-- Witness for C1 at a concrete input: pin the plain object at address 2 of
the example runtime, force a collection naming it as a victim, and read
through the accessor. -/
theorem toObject_pinned_survives_collect_witness :
    IMonoObject.deref ⟨2⟩ (collect { rtEx with pinned := [2] } [2]) = rtEx.objects 2 ∧
      ∃ v, IMonoObject.deref ⟨2⟩ (collect { rtEx with pinned := [2] } [2]) = some v :=
  toObject_pinned_survives_collect rtEx ⟨2⟩ ⟨2⟩ { rtEx with pinned := [2] } rfl [2]

/-- C2: for a valid (non-null) managed string handle, ToString returns the
managed string's contents at call time; the result is a snapshot value, so a
later mutation of the managed string changes what a fresh call returns while
the earlier returned value is unaffected. -/
theorem toString_snapshot_eq_contents
    (rt : MonoRuntime) (h : mono.string) (s t : List Char)
    (h0 : h.addr ≠ 0) (hs : rt.strings h.addr = some s) :
    (IMonoConverter.ToString rt h).1 = some s ∧
      (IMonoConverter.ToString (setString rt h.addr t) h).1 = some t := by
  constructor
  · simp [IMonoConverter.ToString, h0, hs]
  · simp [IMonoConverter.ToString, setString, h0]

/-- Witness for C2 at a concrete input: the two-character string at address 1
of the example runtime, mutated to a one-character string. -/
theorem toString_snapshot_eq_contents_witness :
    (IMonoConverter.ToString rtEx ⟨1⟩).1 = some ['h', 'i'] ∧
      (IMonoConverter.ToString (setString rtEx 1 ['y']) ⟨1⟩).1 = some ['y'] :=
  toString_snapshot_eq_contents rtEx ⟨1⟩ ['h', 'i'] ['y'] (by decide) rfl

/-- C3: for a handle referencing a managed array, ToArray returns an accessor
whose reported length equals the managed array's length at conversion time and
whose element retrieval matches the corresponding managed element at every
valid index. -/
theorem toArray_accessor_matches_managed
    (rt : MonoRuntime) (h : mono.object) (es : List Int)
    (h0 : h.addr ≠ 0) (he : rt.objects h.addr = some (ManagedObject.array es)) :
    ∃ a, (IMonoConverter.ToArray rt h).1 = some a ∧
      IMonoArray.GetSize a = es.length ∧
      ∀ i, i < es.length → IMonoArray.GetItem a i = es[i]? := by
  refine ⟨IMonoArray.mk es, ?_, rfl, fun i _ => rfl⟩
  simp [IMonoConverter.ToArray, h0, he]

/-- Witness for C3 at a concrete input: the two-element array at address 3 of
the example runtime. -/
theorem toArray_accessor_matches_managed_witness :
    ∃ a, (IMonoConverter.ToArray rtEx ⟨3⟩).1 = some a ∧
      IMonoArray.GetSize a = ([7, 8] : List Int).length ∧
      ∀ i, i < ([7, 8] : List Int).length →
        IMonoArray.GetItem a i = ([7, 8] : List Int)[i]? :=
  toArray_accessor_matches_managed rtEx ⟨3⟩ [7, 8] (by decide) rfl

/-- C4: ToString applied to a null handle fails deterministically with none,
and that failure is distinguishable from a successful conversion of an empty
managed string, which returns some empty sequence. -/
theorem toString_null_fails_distinguishable
    (rt : MonoRuntime) (h : mono.string)
    (h0 : h.addr ≠ 0) (he : rt.strings h.addr = some []) :
    (IMonoConverter.ToString rt ⟨0⟩).1 = none ∧
      (IMonoConverter.ToString rt h).1 = some [] ∧
      (IMonoConverter.ToString rt h).1 ≠ (IMonoConverter.ToString rt ⟨0⟩).1 := by
  refine ⟨rfl, ?_, ?_⟩
  · simp [IMonoConverter.ToString, h0, he]
  · simp [IMonoConverter.ToString, h0, he]

/-- Witness for C4 at a concrete input: the empty string at address 4 of the
example runtime versus the null handle. -/
theorem toString_null_fails_distinguishable_witness :
    (IMonoConverter.ToString rtEx ⟨0⟩).1 = none ∧
      (IMonoConverter.ToString rtEx ⟨4⟩).1 = some [] ∧
      (IMonoConverter.ToString rtEx ⟨4⟩).1 ≠ (IMonoConverter.ToString rtEx ⟨0⟩).1 :=
  toString_null_fails_distinguishable rtEx ⟨4⟩ (by decide) rfl

/-- C5: every converter operation fails synchronously with a failure result
(none) on every invalid handle: a null handle for any operation, a dangling
handle for ToString, ToArray and ToObject, and a type-mismatched (non-array)
handle for ToArray; no operation coerces an invalid handle to a
successful-looking default. -/
theorem converter_invalid_handle_fails (rt : MonoRuntime) :
    (IMonoConverter.ToString rt ⟨0⟩).1 = none ∧
      (∀ h : mono.string, rt.strings h.addr = none →
        (IMonoConverter.ToString rt h).1 = none) ∧
      (IMonoConverter.ToArray rt ⟨0⟩).1 = none ∧
      (∀ (h : mono.object) (d : Int),
        rt.objects h.addr = some (ManagedObject.plain d) →
        (IMonoConverter.ToArray rt h).1 = none) ∧
      (∀ h : mono.object, rt.objects h.addr = none →
        (IMonoConverter.ToArray rt h).1 = none) ∧
      (∀ g : Bool, (IMonoConverter.ToObject rt ⟨0⟩ g).1 = none) ∧
      (∀ (h : mono.object) (g : Bool), rt.objects h.addr = none →
        (IMonoConverter.ToObject rt h g).1 = none) := by
  refine ⟨rfl, ?_, rfl, ?_, ?_, fun g => rfl, ?_⟩
  · intro h hn
    by_cases h0 : h.addr = 0 <;> simp [IMonoConverter.ToString, h0, hn]
  · intro h d hd
    by_cases h0 : h.addr = 0 <;> simp [IMonoConverter.ToArray, h0, hd]
  · intro h hn
    by_cases h0 : h.addr = 0 <;> simp [IMonoConverter.ToArray, h0, hn]
  · intro h g hn
    by_cases h0 : h.addr = 0 <;> simp [IMonoConverter.ToObject, h0, hn]

/-- Witness for C5 at concrete inputs: null handles, the dangling address 9,
and the non-array plain object at address 2 of the example runtime. -/
theorem converter_invalid_handle_fails_witness :
    (IMonoConverter.ToString rtEx ⟨0⟩).1 = none ∧
      (IMonoConverter.ToString rtEx ⟨9⟩).1 = none ∧
      (IMonoConverter.ToArray rtEx ⟨0⟩).1 = none ∧
      (IMonoConverter.ToArray rtEx ⟨2⟩).1 = none ∧
      (IMonoConverter.ToArray rtEx ⟨9⟩).1 = none ∧
      (IMonoConverter.ToObject rtEx ⟨0⟩ true).1 = none ∧
      (IMonoConverter.ToObject rtEx ⟨9⟩ false).1 = none := by
  obtain ⟨a, b, c, d, e, f, g⟩ := converter_invalid_handle_fails rtEx
  exact ⟨a, b ⟨9⟩ rfl, c, d ⟨2⟩ 5 rfl, e ⟨9⟩ rfl, f true, g ⟨9⟩ false rfl⟩

/-- C6: calling any conversion operation twice on the same handle yields
results with equal observable content; the second call runs on the state left
by the first. -/
theorem converter_idempotent (rt : MonoRuntime) (hs : mono.string)
    (ho : mono.object) (g : Bool) :
    (IMonoConverter.ToString (IMonoConverter.ToString rt hs).2 hs).1 =
        (IMonoConverter.ToString rt hs).1 ∧
      (IMonoConverter.ToArray (IMonoConverter.ToArray rt ho).2 ho).1 =
        (IMonoConverter.ToArray rt ho).1 ∧
      (IMonoConverter.ToObject (IMonoConverter.ToObject rt ho g).2 ho g).1 =
        (IMonoConverter.ToObject rt ho g).1 := by
  refine ⟨rfl, rfl, ?_⟩
  unfold IMonoConverter.ToObject
  by_cases h0 : ho.addr = 0
  · simp [h0]
  · simp only [h0, if_false]
    cases hobj : rt.objects ho.addr with
    | none => simp [hobj]
    | some v => cases g <;> simp [hobj]

/-- C7: in the header the garbage-collection control parameter of ToObject is
named allowGC and defaults to true, so a call supplying only the handle
performs no pinning and leaves the object collectible; pinning happens exactly
when allowGC = false is passed explicitly, the opposite polarity of the
spec's pin flag. -/
theorem toObject_allowGC_default_polarity :
    allowGCDefault = true ∧
      (∀ (rt : MonoRuntime) (h : mono.object),
        ToObjectDefaultCall rt h = IMonoConverter.ToObject rt h true) ∧
      (∀ (rt : MonoRuntime) (h : mono.object),
        (ToObjectDefaultCall rt h).2 = rt) ∧
      (∀ (rt : MonoRuntime) (h : mono.object), rt.pinned = [] →
        (collect (ToObjectDefaultCall rt h).2 [h.addr]).objects h.addr = none) ∧
      (∀ (rt : MonoRuntime) (h : mono.object) (g : Bool),
        h.addr ≠ 0 → (∃ v, rt.objects h.addr = some v) → h.addr ∉ rt.pinned →
        (h.addr ∈ (IMonoConverter.ToObject rt h g).2.pinned ↔ g = false)) := by
  have hsnd : ∀ (rt : MonoRuntime) (h : mono.object),
      (ToObjectDefaultCall rt h).2 = rt := by
    intro rt h
    unfold ToObjectDefaultCall allowGCDefault IMonoConverter.ToObject
    by_cases h0 : h.addr = 0
    · simp [h0]
    · simp only [h0, if_false]
      cases hobj : rt.objects h.addr with
      | none => rfl
      | some v => rfl
  refine ⟨rfl, fun rt h => rfl, hsnd, ?_, ?_⟩
  · intro rt h hpin
    rw [hsnd rt h]
    simp [collect, hpin]
  · intro rt h g h0 hv hnp
    obtain ⟨v, hv⟩ := hv
    unfold IMonoConverter.ToObject
    simp only [h0, if_false, hv]
    cases g with
    | true => simp [hnp]
    | false => simp

/-- Witness for C7 at a concrete input: a default (handle-only) conversion of
the object at address 2 of the example runtime leaves it collectible, and an
explicit allowGC = false call pins it. -/
theorem toObject_allowGC_default_polarity_witness :
    (collect (ToObjectDefaultCall rtEx ⟨2⟩).2 [2]).objects 2 = none ∧
      (2 ∈ (IMonoConverter.ToObject rtEx ⟨2⟩ false).2.pinned ↔ false = false) := by
  obtain ⟨-, -, -, h4, h5⟩ := toObject_allowGC_default_polarity
  exact ⟨h4 rtEx ⟨2⟩ rfl,
    h5 rtEx ⟨2⟩ false (by decide) ⟨ManagedObject.plain 5, rfl⟩ (by decide)⟩

/-- C8: each operation is a stateless, synchronous translation: ToString and
ToArray return the shared runtime state unchanged, ToObject never alters the
string or object heaps, a non-pinning ToObject call returns the state
unchanged, and the only mutation the boundary ever makes to the shared
collector state is ToObject's pinning, which adds the converted handle's
address to the pinned roots. -/
theorem converter_frame_pinning_only (rt : MonoRuntime) (hs : mono.string)
    (ho : mono.object) (g : Bool) :
    (IMonoConverter.ToString rt hs).2 = rt ∧
      (IMonoConverter.ToArray rt ho).2 = rt ∧
      (IMonoConverter.ToObject rt ho g).2.strings = rt.strings ∧
      (IMonoConverter.ToObject rt ho g).2.objects = rt.objects ∧
      (IMonoConverter.ToObject rt ho true).2 = rt ∧
      ((IMonoConverter.ToObject rt ho g).2.pinned = rt.pinned ∨
        (IMonoConverter.ToObject rt ho g).2.pinned = ho.addr :: rt.pinned) := by
  refine ⟨rfl, rfl, ?_, ?_, ?_, ?_⟩
  all_goals
    unfold IMonoConverter.ToObject
    by_cases h0 : ho.addr = 0
  · simp [h0]
  · simp only [h0, if_false]
    cases hobj : rt.objects ho.addr with
    | none => rfl
    | some v => cases g <;> rfl
  · simp [h0]
  · simp only [h0, if_false]
    cases hobj : rt.objects ho.addr with
    | none => rfl
    | some v => cases g <;> rfl
  · simp [h0]
  · simp only [h0, if_false]
    cases hobj : rt.objects ho.addr with
    | none => rfl
    | some v => rfl
  · simp [h0]
  · simp only [h0, if_false]
    cases hobj : rt.objects ho.addr with
    | none => exact Or.inl rfl
    | some v => cases g with
      | true => exact Or.inl rfl
      | false => exact Or.inr rfl

/-- C9: the boundary never takes ownership of the managed values behind the
handles it receives: every operation leaves the heaps intact, producing only
native-side views; the underlying object's lifetime stays governed by the
collector (a non-pinning conversion leaves it reclaimable by a forced cycle),
except when the conversion explicitly requests pinning, in which case the
object survives every cycle. -/
theorem converter_no_ownership (rt : MonoRuntime) (hs : mono.string)
    (ho : mono.object) (g : Bool) :
    (IMonoConverter.ToString rt hs).2.strings = rt.strings ∧
      (IMonoConverter.ToArray rt ho).2.objects = rt.objects ∧
      (IMonoConverter.ToObject rt ho g).2.objects = rt.objects ∧
      (rt.pinned = [] →
        (collect (IMonoConverter.ToObject rt ho true).2 [ho.addr]).objects ho.addr
          = none) ∧
      (∀ (acc : IMonoObject) (rt' : MonoRuntime),
        IMonoConverter.ToObject rt ho false = (some acc, rt') →
        ∀ vs, (collect rt' vs).objects acc.addr = rt.objects ho.addr) := by
  have hobjs : (IMonoConverter.ToObject rt ho g).2.objects = rt.objects := by
    unfold IMonoConverter.ToObject
    by_cases h0 : ho.addr = 0
    · simp [h0]
    · simp only [h0, if_false]
      cases hobj : rt.objects ho.addr with
      | none => rfl
      | some v => cases g <;> rfl
  have hsnd : (IMonoConverter.ToObject rt ho true).2 = rt := by
    unfold IMonoConverter.ToObject
    by_cases h0 : ho.addr = 0
    · simp [h0]
    · simp only [h0, if_false]
      cases hobj : rt.objects ho.addr with
      | none => rfl
      | some v => rfl
  refine ⟨rfl, rfl, hobjs, ?_, ?_⟩
  · intro hpin
    rw [hsnd]
    simp [collect, hpin]
  · intro acc rt' hcall vs
    obtain ⟨h0, hacc, ⟨v, hv⟩, hstr, hobjs', hpin⟩ :=
      ToObject_eq_some rt ho false acc rt' hcall
    subst hacc
    simp at hpin
    have hmem : ho.addr ∈ rt'.pinned := by
      rw [hpin]; exact List.mem_cons_self _ _
    simp [collect, hmem, hobjs']

/-- Witness for C9 at concrete inputs: the plain object at address 2 of the
example runtime is reclaimable after a default (non-pinning) conversion, and
survives collection after a pinning conversion. -/
theorem converter_no_ownership_witness :
    (collect (IMonoConverter.ToObject rtEx ⟨2⟩ true).2 [2]).objects 2 = none ∧
      (collect { rtEx with pinned := [2] } [9]).objects 2 = rtEx.objects 2 := by
  obtain ⟨-, -, -, h4, h5⟩ := converter_no_ownership rtEx ⟨1⟩ ⟨2⟩ true
  exact ⟨h4 rfl, h5 ⟨2⟩ { rtEx with pinned := [2] } rfl [9]⟩

/-- C10: the handle types are statically distinct: mono::string points to the
incomplete class _string while mono::object points to the distinct incomplete
class _object, so a string handle is not an object handle; and ToArray's
precondition that its handle references an array is not expressed in the
interface's types: the same well-typed mono::object handle is accepted by
ToObject yet rejected by ToArray's runtime check when its referent is not an
array. -/
theorem handle_types_distinct_runtime_check :
    MonoClass._string ≠ MonoClass._object ∧
      rtEx.objects 2 = some (ManagedObject.plain 5) ∧
      (IMonoConverter.ToObject rtEx ⟨2⟩ true).1 = some ⟨2⟩ ∧
      (IMonoConverter.ToArray rtEx ⟨2⟩).1 = none :=
  ⟨by decide, rfl, rfl, rfl⟩
